import Mathlib

/-!
Verification development for the OpenShift quiz application (`src/app.py`).

The file shallowly embeds the quiz session state machine of `app.py`:
the module-level mutable globals become the fields of `QuizState`, and each
Flask handler becomes a pure function from inputs (question bank, clock
reading, request payload) and a pre-state to a response and a post-state.

Modelling conventions:
* Python dicts (insertion-ordered) are association lists (`alGet`, `alSet`,
  `alRemove`); Python sets that the code only iterates, sizes, or tests
  membership on are lists without duplicates (`listAdd`, `listRemove`).
* `time.time()` readings are exact rationals (`ℚ`); Python `int(x)` is
  truncation toward zero (`pyTrunc`).
* `QUIZ_SESSION` is `str(int(...))`; since `str` is injective on integers the
  epoch is modelled by the underlying integer.
* Python `str.casefold` is modelled by `String.toLower` (they agree on the
  ASCII fragment); `str.strip()` / `re.sub(r"\s+", " ", ·)` are modelled
  character-exactly on ASCII whitespace.
* JSON responses `{"ok"/"accepted": b, "message": m}` with HTTP status `c`
  become the record `ApiResp` (`ok` also stands for `accepted`).
-/

/-- The five quiz phases of `PHASE` in `app.py`. -/
inductive Phase where
  | lobby
  | question
  | answer
  | reveal
  | final
deriving DecidableEq, Repr

/-- One question record supplied by the YAML question bank:
`{text, options, answer, note}` where `answer` may be absent. -/
structure Question where
  text : String
  options : List String
  answer : Option Int
  note : Option String
deriving DecidableEq, Repr

/-- A JSON response together with its HTTP status code. For `/api/submit` the
`ok` field models the `accepted` field of the JSON body. -/
structure ApiResp where
  ok : Bool
  message : String
  status : Nat
deriving DecidableEq, Repr

/-- The module-level mutable state of `app.py`:
`PLAYERS`, `NAME_INDEX`, `SCORES`, `SUBMITTED`, `CURRENT_ANSWERS`,
`LAST_SUBMISSION_TS`, `PHASE`, `CURRENT_INDEX`, `LAST_SCORED_INDEX`,
`LB_ROWS_SNAPSHOT`, `LB_WINNERS_SNAPSHOT`, `LB_MAX_SNAPSHOT`, `QUIZ_SESSION`. -/
structure QuizState where
  players : List String
  nameIndex : List (String × String)
  scores : List (String × Nat)
  submitted : List String
  currentAnswers : List (String × Option Int)
  lastSubmissionTs : List (String × ℚ)
  phase : Phase
  currentIndex : Int
  lastScoredIndex : Int
  lbRows : List (String × Nat)
  lbWinners : List String
  lbMax : Nat
  quizSession : Int
deriving DecidableEq, Repr

/-- Dictionary lookup `d.get(k)` on an insertion-ordered association list. -/
def alGet {α : Type} : List (String × α) → String → Option α
  | [], _ => none
  | p :: t, k => if p.1 = k then some p.2 else alGet t k

/-- Dictionary update `d[k] = v`: replace in place if the key is present,
append otherwise (Python dicts preserve insertion order). -/
def alSet {α : Type} : List (String × α) → String → α → List (String × α)
  | [], k, v => [(k, v)]
  | p :: t, k, v => if p.1 = k then (k, v) :: t else p :: alSet t k v

/-- Dictionary removal `d.pop(k, ...)`. -/
def alRemove {α : Type} (l : List (String × α)) (k : String) : List (String × α) :=
  l.filter (fun p => !(p.1 == k))

/-- Set insertion `s.add(x)` for a set modelled as a duplicate-free list. -/
def listAdd (l : List String) (x : String) : List String :=
  if x ∈ l then l else l ++ [x]

/-- Set removal `s.remove(x)` / `s.discard(x)`. -/
def listRemove (l : List String) (x : String) : List String :=
  l.filter (fun y => !(y == x))

/-- ASCII whitespace, the characters matched by Python `\s` and stripped by
`str.strip()` on ASCII input. -/
def isPySpace (c : Char) : Bool :=
  c = ' ' ∨ c = '\t' ∨ c = '\n' ∨ c = '\x0d' ∨ c = '\x0b' ∨ c = '\x0c'

/-- Python `str.strip()` (ASCII fragment). -/
def pyStrip (s : String) : String :=
  ⟨((s.data.dropWhile isPySpace).reverse.dropWhile isPySpace).reverse⟩

/-- One pass of `re.sub(r"\s+", " ", ·)`: every maximal whitespace run becomes
a single space. `prevWs` records whether the previous character was part of a
whitespace run already emitted. -/
def collapseWs : Bool → List Char → List Char
  | _, [] => []
  | prevWs, c :: cs =>
    if isPySpace c then
      if prevWs then collapseWs true cs else ' ' :: collapseWs true cs
    else c :: collapseWs false cs

/-- `normalize_name` from `app.py`: strip, collapse internal whitespace, and
reject the empty or over-40-character result by returning `""`. -/
def normalize_name (name : String) : String :=
  let n1 := pyStrip name
  let n2 : String := ⟨collapseWs false n1.data⟩
  if n2 = "" ∨ 40 < n2.length then "" else n2

/-- Python `str.casefold`, modelled on the ASCII fragment where it coincides
with lower-casing. -/
def caseFold (s : String) : String := s.toLower

/-- Python `int(q)` on a rational clock reading: truncation toward zero. -/
def pyTrunc (q : ℚ) : Int := Int.tdiv q.num (q.den : Int)

/-- `current_question()` from `app.py`, with the loaded bank passed in. -/
def current_question (qs : List Question) (idx : Int) : Option Question :=
  if 0 ≤ idx ∧ idx < (qs.length : Int) then qs[idx.toNat]? else none

/-- Read a score from the `defaultdict(int)` ledger: missing keys read as 0. -/
def scGet (sc : List (String × Nat)) (p : String) : Nat :=
  (alGet sc p).getD 0

/-- The `for name in PLAYERS` loop body of `score_current_question_once`:
`if CURRENT_ANSWERS.get(name, None) == correct_idx: SCORES[name] += 1`. -/
def score_players_loop (correct : Int) (answers : List (String × Option Int))
    (names : List String) (sc : List (String × Nat)) : List (String × Nat) :=
  names.foldl
    (fun acc name =>
      if (alGet answers name).getD none = some correct then
        alSet acc name (scGet acc name + 1)
      else acc)
    sc

/-- `score_current_question_once` from `app.py`: award +1 to players whose
last stored answer matches the correct index, at most once per question
(guarded by `LAST_SCORED_INDEX`). -/
def score_current_question_once (qs : List Question) (s : QuizState) : QuizState :=
  if s.currentIndex = -1 ∨ s.currentIndex = s.lastScoredIndex then s
  else
    match current_question qs s.currentIndex with
    | none => { s with lastScoredIndex := s.currentIndex }
    | some q =>
      match q.answer with
      | none => { s with lastScoredIndex := s.currentIndex }
      | some correct =>
        { s with
          scores := score_players_loop correct s.currentAnswers s.players s.scores
          lastScoredIndex := s.currentIndex }

/-- `winners_from_scores` from `app.py`: the names attaining the maximum
score, together with that maximum (`([], 0)` when the ledger is empty).
`max(SCORES.values())` on the nonempty ledger is modelled by folding
`Nat.max` from 0, which agrees because scores are naturals. -/
def winners_from_scores (sc : List (String × Nat)) : List String × Nat :=
  if sc = [] then ([], 0)
  else
    let mx := (sc.map (fun p => p.2)).foldl Nat.max 0
    ((sc.filter (fun p => p.2 == mx)).map (fun p => p.1), mx)

/-- Stable insertion of a row into a list sorted by score descending:
the inserted row goes before strictly smaller scores and after
greater-or-equal ones, exactly the placement of Python's stable
`sorted(..., reverse=True)`. -/
def insertDesc (x : String × Nat) : List (String × Nat) → List (String × Nat)
  | [] => [x]
  | y :: ys => if y.2 < x.2 then x :: y :: ys else y :: insertDesc x ys

/-- `sorted(SCORES.items(), key=lambda kv: kv[1], reverse=True)`:
a stable sort by score descending. -/
def sortScoresDesc : List (String × Nat) → List (String × Nat)
  | [] => []
  | x :: xs => insertDesc x (sortScoresDesc xs)

/-- `snapshot_leaderboard` from `app.py`: freeze rows, winners, and max. -/
def snapshot_leaderboard (s : QuizState) : QuizState :=
  let rows := sortScoresDesc s.scores
  let wm := winners_from_scores s.scores
  { s with lbRows := rows, lbWinners := wm.1, lbMax := wm.2 }

/-- `clear_leaderboard_snapshot` from `app.py`. -/
def clear_leaderboard_snapshot (s : QuizState) : QuizState :=
  { s with lbRows := [], lbWinners := [], lbMax := 0 }

/-- `bump_session` from `app.py`: `QUIZ_SESSION = str(int(time.time()*1000))`. -/
def bump_session (now : ℚ) (s : QuizState) : QuizState :=
  { s with quizSession := pyTrunc (now * 1000) }

/-- `_advance_to_question` from `app.py`. -/
def advance_to_question (s : QuizState) : QuizState :=
  { s with phase := Phase.question, submitted := [], currentAnswers := [] }

/-- `_advance_to_answer` from `app.py`: score once, then enter `answer`. -/
def advance_to_answer (qs : List Question) (s : QuizState) : QuizState :=
  { score_current_question_once qs s with phase := Phase.answer }

/-- `_advance_to_reveal` from `app.py`. -/
def advance_to_reveal (s : QuizState) : QuizState :=
  snapshot_leaderboard { s with phase := Phase.reveal }

/-- `_advance_to_final` from `app.py`. -/
def advance_to_final (s : QuizState) : QuizState :=
  snapshot_leaderboard { s with phase := Phase.final }

/-- The `lower` key computed by `/api/submit` from the raw `name` field:
`normalize_name(name).casefold() if name else ""` after stripping. -/
def submitLower (nameRaw : String) : String :=
  let name := pyStrip nameRaw
  if name = "" then "" else caseFold (normalize_name name)

/-- The throttle test of `/api/submit`:
`canonical in LAST_SUBMISSION_TS and now - LAST_SUBMISSION_TS[canonical] < 0.3`. -/
def rate_limited (s : QuizState) (canonical : String) (now : ℚ) : Bool :=
  match alGet s.lastSubmissionTs canonical with
  | some ts => now - ts < 3 / 10
  | none => false

/-- The state mutations of an accepted `/api/submit` call before the
auto-advance check: stamp the throttle clock, store the (last-write-wins)
answer, and mark the player as having submitted. -/
def submit_update (s : QuizState) (canonical : String) (answer : Option Int)
    (now : ℚ) : QuizState :=
  { s with
    lastSubmissionTs := alSet s.lastSubmissionTs canonical now
    currentAnswers := alSet s.currentAnswers canonical answer
    submitted := listAdd s.submitted canonical }

/-- `/api/submit` from `app.py`. Arguments: loaded question bank, raw `name`
payload field, `answer` payload field, clock reading, pre-state. -/
def api_submit (qs : List Question) (nameRaw : String) (answer : Option Int)
    (now : ℚ) (s : QuizState) : ApiResp × QuizState :=
  if s.phase ≠ Phase.question then (⟨false, "Not accepting answers now", 400⟩, s)
  else
    match alGet s.nameIndex (submitLower nameRaw) with
    | none => (⟨false, "Please register first", 400⟩, s)
    | some canonical =>
      if rate_limited s canonical now then (⟨false, "Slow down", 429⟩, s)
      else
        let s1 := submit_update s canonical answer now
        let s2 :=
          if 0 < s1.players.length ∧ s1.players.length ≤ s1.submitted.length then
            advance_to_answer qs s1
          else s1
        (⟨true, "", 200⟩, s2)

/-- The shared tail of `/api/register` ("new registration" block, lines
602–608 of `app.py`): no-op success if the case-folded key is present,
otherwise insert. `SCORES[new_norm] = SCORES[new_norm]` materializes the
defaultdict entry, keeping an existing score if one is present. -/
def register_new_block (s : QuizState) (new_norm new_lower : String) :
    ApiResp × QuizState :=
  if (alGet s.nameIndex new_lower).isSome then (⟨true, "", 200⟩, s)
  else
    (⟨true, "", 200⟩,
      { s with
        players := listAdd s.players new_norm
        nameIndex := alSet s.nameIndex new_lower new_norm
        scores := alSet s.scores new_norm (scGet s.scores new_norm) })

/-- The `prev_lower` key computed by `/api/register` from a nonempty stripped
`prev` field. -/
def prevLower (prevS : String) : String :=
  let prev_norm := normalize_name prevS
  if prev_norm = "" then "" else caseFold prev_norm

/-- The state migration of the rename branch of `/api/register` (lines
586–597 of `app.py`): move the canonical name and score to the new key and
drop the old key's submission presence, in-flight answer, and throttle stamp. -/
def register_migrate (s : QuizState) (old_canon new_norm new_lower prev_lower : String) :
    QuizState :=
  { s with
    players := listAdd (listRemove s.players old_canon) new_norm
    nameIndex := alSet (alRemove s.nameIndex prev_lower) new_lower new_norm
    scores := alSet (alRemove s.scores old_canon) new_norm (scGet s.scores old_canon)
    submitted := listRemove s.submitted old_canon
    currentAnswers := alRemove s.currentAnswers old_canon
    lastSubmissionTs := alRemove s.lastSubmissionTs old_canon }

/-- `/api/register` from `app.py`. A missing or whitespace `prev` payload
field is the empty string (the code collapses both to `None`). -/
def api_register (nameReq prevRaw : String) (s : QuizState) : ApiResp × QuizState :=
  let new_norm := normalize_name nameReq
  if new_norm = "" then (⟨false, "Name required", 400⟩, s)
  else
    let new_lower := caseFold new_norm
    let prevS := pyStrip prevRaw
    if prevS = "" then register_new_block s new_norm new_lower
    else
      match alGet s.nameIndex (prevLower prevS) with
      | some old_canon =>
        if prevLower prevS = new_lower then (⟨true, "", 200⟩, s)
        else if s.phase ≠ Phase.lobby then
          (⟨false, "Quiz already started — name changes are locked.", 400⟩, s)
        else if (alGet s.nameIndex new_lower).isSome then
          (⟨false, "That name is already taken. Please pick a different name.", 400⟩, s)
        else
          (⟨true, "", 200⟩, register_migrate s old_canon new_norm new_lower (prevLower prevS))
      | none =>
        if s.phase ≠ Phase.lobby then
          (⟨false, "Quiz already started — name changes are locked.", 400⟩, s)
        else if (alGet s.nameIndex new_lower).isSome then
          (⟨false, "That name is already taken. Please pick a different name.", 400⟩, s)
        else register_new_block s new_norm new_lower

/-- `/api/leaderboard` from `app.py`: the frozen snapshot triple
(rows, winners, max_score). -/
def api_leaderboard (s : QuizState) : List (String × Nat) × List String × Nat :=
  (s.lbRows, s.lbWinners, s.lbMax)

/-- `/api/admin/start` from `app.py`. -/
def api_admin_start (qs : List Question) (now : ℚ) (s : QuizState) :
    ApiResp × QuizState :=
  let s1 := bump_session now (clear_leaderboard_snapshot s)
  let s2 := { s1 with
    scores := s1.players.map (fun n => (n, 0))
    submitted := []
    currentAnswers := []
    lastScoredIndex := -1
    currentIndex := if 0 < qs.length then 0 else -1 }
  let s3 := { s2 with phase := if 0 ≤ s2.currentIndex then Phase.question else Phase.final }
  let s4 := if s3.phase = Phase.final then snapshot_leaderboard s3 else s3
  (⟨true, "Quiz started", 200⟩, s4)

/-- `/api/admin/advance` from `app.py`. -/
def api_admin_advance (qs : List Question) (s : QuizState) : ApiResp × QuizState :=
  match s.phase with
  | Phase.question => (⟨true, "Showing correct answer", 200⟩, advance_to_answer qs s)
  | Phase.answer => (⟨true, "Showing leaderboard", 200⟩, advance_to_reveal s)
  | Phase.reveal =>
    if s.currentIndex + 1 < (qs.length : Int) then
      let s1 := { s with currentIndex := s.currentIndex + 1 }
      (⟨true, "Next question (" ++ toString (s1.currentIndex + 1) ++ "/" ++
        toString qs.length ++ ")", 200⟩, advance_to_question s1)
    else (⟨true, "Quiz finished", 200⟩, advance_to_final s)
  | Phase.lobby => (⟨false, "Start the quiz first", 400⟩, s)
  | Phase.final => (⟨true, "Already final", 200⟩, s)

/-- `/api/admin/reset` from `app.py`: hard reset of every global, fresh epoch. -/
def api_admin_reset (now : ℚ) (s : QuizState) : ApiResp × QuizState :=
  (⟨true, "Hard reset complete — players must register again", 200⟩,
    bump_session now
      { s with
        players := []
        nameIndex := []
        scores := []
        submitted := []
        currentAnswers := []
        lastSubmissionTs := []
        phase := Phase.lobby
        currentIndex := -1
        lastScoredIndex := -1
        lbRows := []
        lbWinners := []
        lbMax := 0 })

/-- The module-level initial state of `app.py`, loaded at clock reading `t0`
(`QUIZ_SESSION = str(int(time.time()))`, in whole seconds). -/
def initState (t0 : ℚ) : QuizState :=
  { players := []
    nameIndex := []
    scores := []
    submitted := []
    currentAnswers := []
    lastSubmissionTs := []
    phase := Phase.lobby
    currentIndex := -1
    lastScoredIndex := -1
    lbRows := []
    lbWinners := []
    lbMax := 0
    quizSession := pyTrunc t0 }

/-- The stored last-submitted option of a player for the current question:
`CURRENT_ANSWERS.get(name, None)`. -/
def lastAnswer (s : QuizState) (p : String) : Option Int :=
  (alGet s.currentAnswers p).getD none

/-- A player's cumulative score, read from the `defaultdict(int)` ledger. -/
def playerScore (s : QuizState) (p : String) : Nat :=
  scGet s.scores p

/-- A sample question bank with one question whose correct option is 1. -/
def q0 : Question := ⟨"2+2?", ["3", "4"], some 1, none⟩

/-- A one-question bank. -/
def qs1 : List Question := [q0]

/-- Lobby state with player `Alice` registered (server loaded at clock 0). -/
def stLobby : QuizState := (api_register "Alice" "" (initState 0)).2

/-- Lobby state with players `Alice` and `Bob` registered. -/
def stL2 : QuizState := (api_register "Bob" "" stLobby).2

/-- Question phase, index 0, players `Alice` and `Bob`, nobody submitted:
the state after `start` on the one-question bank at clock 1. -/
def stQ2 : QuizState := (api_admin_start qs1 1 stL2).2

/-- `stQ2` after `Alice` submits option 1 at clock 2 (no auto-advance:
`Bob` has not submitted). -/
def sub1 : QuizState := (api_submit qs1 "Alice" (some 1) 2 stQ2).2

/-- The state reached by `start` on an empty question bank from the initial
state: phase `final` with `current_index = -1`. -/
def sEmptyStart : QuizState := (api_admin_start [] 0 (initState 0)).2

/-- Epoch example: `start` at clock 5/2 seconds (epoch becomes 2500). -/
def sEp1 : QuizState := (api_admin_start qs1 (5 / 2) stLobby).2

/-- Epoch example: a second `start` at clock 12501/5000 seconds, a different
clock reading in the same millisecond (epoch stays 2500). -/
def sEp2 : QuizState := (api_admin_start qs1 (12501 / 5000) sEp1).2

/-- A question-phase state in which both registered players have already
submitted for the current question (used to exercise the all-players-submitted
threshold after a mid-question registration). -/
def sAllSub : QuizState :=
  { players := ["Alice", "Bob"]
    nameIndex := [("alice", "Alice"), ("bob", "Bob")]
    scores := [("Alice", 0), ("Bob", 0)]
    submitted := ["Alice", "Bob"]
    currentAnswers := [("Alice", some 1), ("Bob", some 0)]
    lastSubmissionTs := [("Alice", 2), ("Bob", 3)]
    phase := Phase.question
    currentIndex := 0
    lastScoredIndex := -1
    lbRows := []
    lbWinners := []
    lbMax := 0
    quizSession := 1000 }

/-- The amended phase/index invariant of the session (claim C3): the lobby
pins the index at -1, an index of -1 occurs only in lobby or in the `final`
state reached by an empty-bank `start`, and any other non-lobby state keeps
the index inside the bank. -/
def phaseIndexInv (qs : List Question) (s : QuizState) : Prop :=
  (s.phase = Phase.lobby → s.currentIndex = -1) ∧
  (s.currentIndex = -1 → s.phase = Phase.lobby ∨ s.phase = Phase.final) ∧
  (s.phase ≠ Phase.lobby → s.currentIndex ≠ -1 →
    0 ≤ s.currentIndex ∧ s.currentIndex < (qs.length : Int))

/-! ## Association-list and scoring-loop lemmas -/

theorem alGet_alSet_self {α : Type} (l : List (String × α)) (k : String) (v : α) :
    alGet (alSet l k v) k = some v := by
  induction l with
  | nil => simp [alGet, alSet]
  | cons p t ih =>
    by_cases h : p.1 = k
    · simp [alSet, h, alGet]
    · simp [alSet, h, alGet, ih]

theorem alGet_alSet_ne {α : Type} (l : List (String × α)) (k k' : String) (v : α)
    (h : k' ≠ k) : alGet (alSet l k v) k' = alGet l k' := by
  induction l with
  | nil => simp only [alSet, alGet, if_neg (Ne.symm h)]
  | cons p t ih =>
    by_cases hp : p.1 = k
    · subst hp
      simp only [alSet, if_pos rfl, alGet, if_neg (Ne.symm h)]
    · simp only [alSet, if_neg hp, alGet]
      by_cases hp' : p.1 = k'
      · simp [hp']
      · simp [hp', ih]

theorem score_players_loop_cons (c : Int) (a : List (String × Option Int))
    (n : String) (t : List String) (sc : List (String × Nat)) :
    score_players_loop c a (n :: t) sc =
      score_players_loop c a t
        (if (alGet a n).getD none = some c then alSet sc n (scGet sc n + 1) else sc) := by
  simp only [score_players_loop, List.foldl_cons]

theorem score_players_loop_get_of_not_mem (c : Int) (a : List (String × Option Int))
    (names : List String) (sc : List (String × Nat)) (p : String) (hp : p ∉ names) :
    alGet (score_players_loop c a names sc) p = alGet sc p := by
  induction names generalizing sc with
  | nil => rfl
  | cons n t ih =>
    rw [score_players_loop_cons]
    have hpn : p ≠ n := fun h => hp (h ▸ List.mem_cons_self n t)
    have hpt : p ∉ t := fun h => hp (List.mem_cons_of_mem n h)
    rw [ih _ hpt]
    split
    · exact alGet_alSet_ne sc n p _ hpn
    · rfl

theorem score_players_loop_get_of_mem (c : Int) (a : List (String × Option Int))
    (names : List String) (sc : List (String × Nat)) (p : String)
    (hnd : names.Nodup) (hp : p ∈ names) :
    scGet (score_players_loop c a names sc) p =
      scGet sc p + (if (alGet a p).getD none = some c then 1 else 0) := by
  induction names generalizing sc with
  | nil => cases hp
  | cons n t ih =>
    rw [score_players_loop_cons]
    rcases List.mem_cons.mp hp with rfl | hpt
    · have hnt : p ∉ t := (List.nodup_cons.mp hnd).1
      simp only [scGet]
      rw [score_players_loop_get_of_not_mem c a t _ p hnt]
      split
      · rw [alGet_alSet_self]
        simp [scGet]
      · simp [scGet]
    · have hpn : p ≠ n := fun h => (List.nodup_cons.mp hnd).1 (h ▸ hpt)
      rw [ih _ (List.nodup_cons.mp hnd).2 hpt]
      congr 1
      simp only [scGet]
      split
      · rw [alGet_alSet_ne sc n p _ hpn]
      · rfl

/-! ## Frame lemmas for the scoring and snapshot operations -/

theorem score_once_eq_update (qs : List Question) (s : QuizState) :
    ∃ sc li, score_current_question_once qs s =
      { s with scores := sc, lastScoredIndex := li } := by
  unfold score_current_question_once
  split
  · exact ⟨s.scores, s.lastScoredIndex, rfl⟩
  · split
    · exact ⟨s.scores, s.currentIndex, rfl⟩
    · split
      · exact ⟨s.scores, s.currentIndex, rfl⟩
      · exact ⟨_, s.currentIndex, rfl⟩

theorem score_once_phase (qs : List Question) (s : QuizState) :
    (score_current_question_once qs s).phase = s.phase := by
  obtain ⟨sc, li, h⟩ := score_once_eq_update qs s
  rw [h]

theorem score_once_currentIndex (qs : List Question) (s : QuizState) :
    (score_current_question_once qs s).currentIndex = s.currentIndex := by
  obtain ⟨sc, li, h⟩ := score_once_eq_update qs s
  rw [h]

theorem score_once_currentAnswers (qs : List Question) (s : QuizState) :
    (score_current_question_once qs s).currentAnswers = s.currentAnswers := by
  obtain ⟨sc, li, h⟩ := score_once_eq_update qs s
  rw [h]

theorem api_leaderboard_score_once (qs : List Question) (s : QuizState) :
    api_leaderboard (score_current_question_once qs s) = api_leaderboard s := by
  obtain ⟨sc, li, h⟩ := score_once_eq_update qs s
  rw [h]
  rfl

/-! ## Case lemmas for `/api/submit` -/

theorem api_submit_not_question (qs : List Question) (nm : String) (a : Option Int)
    (now : ℚ) (t : QuizState) (hph : t.phase ≠ Phase.question) :
    api_submit qs nm a now t = (⟨false, "Not accepting answers now", 400⟩, t) := by
  unfold api_submit
  rw [if_pos hph]

theorem api_submit_unregistered (qs : List Question) (nm : String) (a : Option Int)
    (now : ℚ) (t : QuizState) (hph : t.phase = Phase.question)
    (hres : alGet t.nameIndex (submitLower nm) = none) :
    api_submit qs nm a now t = (⟨false, "Please register first", 400⟩, t) := by
  unfold api_submit
  rw [if_neg (by simp [hph]), hres]

theorem api_submit_throttled (qs : List Question) (nm : String) (a : Option Int)
    (now : ℚ) (t : QuizState) (canonical : String) (hph : t.phase = Phase.question)
    (hres : alGet t.nameIndex (submitLower nm) = some canonical)
    (hrl : rate_limited t canonical now = true) :
    api_submit qs nm a now t = (⟨false, "Slow down", 429⟩, t) := by
  unfold api_submit
  rw [if_neg (by simp [hph]), hres]
  simp only [hrl, if_true]

theorem api_submit_accept (qs : List Question) (nm : String) (a : Option Int)
    (now : ℚ) (t : QuizState) (canonical : String) (hph : t.phase = Phase.question)
    (hres : alGet t.nameIndex (submitLower nm) = some canonical)
    (hrl : rate_limited t canonical now = false) :
    api_submit qs nm a now t =
      (⟨true, "", 200⟩,
        if 0 < t.players.length ∧ t.players.length ≤ (listAdd t.submitted canonical).length
        then advance_to_answer qs (submit_update t canonical a now)
        else submit_update t canonical a now) := by
  unfold api_submit
  rw [if_neg (by simp [hph]), hres]
  simp only [hrl, Bool.false_eq_true, if_false, submit_update]

/-! ## C1: scoring increments each player's score at most once -/

/-- C1: when the current question has not yet been scored and has a correct
option, running the scoring operation increments a registered player's
cumulative score by exactly 1 if their stored last-submitted option equals the
correct index and by 0 otherwise; re-running the scoring operation (in
particular for an already-scored index, guarded by `LAST_SCORED_INDEX`) is a
no-op on the whole state; and an accepted submit overwrites the stored option,
so only the last of any number of submits feeds the increment. -/
theorem scoring_awards_at_most_one_point (qs : List Question) (s : QuizState)
    (p : String) (q : Question) (c : Int)
    (hnd : s.players.Nodup) (hp : p ∈ s.players)
    (hidx : s.currentIndex ≠ -1) (hguard : s.currentIndex ≠ s.lastScoredIndex)
    (hq : current_question qs s.currentIndex = some q) (hc : q.answer = some c) :
    playerScore (score_current_question_once qs s) p =
      playerScore s p + (if lastAnswer s p = some c then 1 else 0) ∧
    score_current_question_once qs (score_current_question_once qs s) =
      score_current_question_once qs s ∧
    (∀ t : QuizState, t.currentIndex = t.lastScoredIndex →
      score_current_question_once qs t = t) ∧
    (∀ (nm : String) (a : Option Int) (now : ℚ) (t : QuizState) (canonical : String),
      t.phase = Phase.question →
      alGet t.nameIndex (submitLower nm) = some canonical →
      rate_limited t canonical now = false →
      lastAnswer (api_submit qs nm a now t).2 canonical = a) := by
  have hnot : ¬(s.currentIndex = -1 ∨ s.currentIndex = s.lastScoredIndex) := by
    rintro (h | h)
    · exact hidx h
    · exact hguard h
  have hrun : score_current_question_once qs s =
      { s with
        scores := score_players_loop c s.currentAnswers s.players s.scores
        lastScoredIndex := s.currentIndex } := by
    unfold score_current_question_once
    rw [if_neg hnot, hq]
    dsimp only
    rw [hc]
  refine ⟨?_, ?_, ?_, ?_⟩
  · rw [hrun]
    simpa [playerScore, lastAnswer] using
      score_players_loop_get_of_mem c s.currentAnswers s.players s.scores p hnd hp
  · rw [hrun]
    unfold score_current_question_once
    rw [if_pos (Or.inr rfl)]
  · intro t ht
    unfold score_current_question_once
    rw [if_pos (Or.inr ht)]
  · intro nm a now t canonical hph hres hrl
    rw [api_submit_accept qs nm a now t canonical hph hres hrl]
    unfold lastAnswer
    split
    · show (alGet (advance_to_answer qs (submit_update t canonical a now)).currentAnswers
        canonical).getD none = a
      rw [advance_to_answer, score_once_currentAnswers]
      show (alGet (alSet t.currentAnswers canonical a) canonical).getD none = a
      rw [alGet_alSet_self]
      rfl
    · show (alGet (submit_update t canonical a now).currentAnswers canonical).getD none
        = a
      show (alGet (alSet t.currentAnswers canonical a) canonical).getD none = a
      rw [alGet_alSet_self]
      rfl

/-- Witness for C1 at the concrete two-player state `sub1` (question phase,
`Alice` has submitted option 1, correct option 1, not yet scored). -/
theorem scoring_awards_at_most_one_point_witness :
    playerScore (score_current_question_once qs1 sub1) "Alice" =
      playerScore sub1 "Alice" + (if lastAnswer sub1 "Alice" = some 1 then 1 else 0) ∧
    score_current_question_once qs1 (score_current_question_once qs1 sub1) =
      score_current_question_once qs1 sub1 ∧
    (∀ t : QuizState, t.currentIndex = t.lastScoredIndex →
      score_current_question_once qs1 t = t) ∧
    (∀ (nm : String) (a : Option Int) (now : ℚ) (t : QuizState) (canonical : String),
      t.phase = Phase.question →
      alGet t.nameIndex (submitLower nm) = some canonical →
      rate_limited t canonical now = false →
      lastAnswer (api_submit qs1 nm a now t).2 canonical = a) :=
  scoring_awards_at_most_one_point qs1 sub1 "Alice" q0 1
    (by with_unfolding_all decide) (by with_unfolding_all decide)
    (by with_unfolding_all decide) (by with_unfolding_all decide)
    (by with_unfolding_all rfl) (by with_unfolding_all rfl)

/-! ## Frame lemmas for phase and index -/

theorem advance_to_answer_phase (qs : List Question) (s : QuizState) :
    (advance_to_answer qs s).phase = Phase.answer := rfl

theorem advance_to_answer_currentIndex (qs : List Question) (s : QuizState) :
    (advance_to_answer qs s).currentIndex = s.currentIndex :=
  score_once_currentIndex qs s

theorem api_register_phase (nm pv : String) (s : QuizState) :
    (api_register nm pv s).2.phase = s.phase := by
  simp only [api_register, register_new_block, register_migrate]
  split
  any_goals split
  any_goals split
  any_goals split
  any_goals split
  any_goals split
  all_goals rfl

theorem api_register_currentIndex (nm pv : String) (s : QuizState) :
    (api_register nm pv s).2.currentIndex = s.currentIndex := by
  simp only [api_register, register_new_block, register_migrate]
  split
  any_goals split
  any_goals split
  any_goals split
  any_goals split
  any_goals split
  all_goals rfl

theorem api_admin_start_currentIndex (qs : List Question) (now : ℚ) (s : QuizState) :
    (api_admin_start qs now s).2.currentIndex = (if 0 < qs.length then 0 else -1) := by
  unfold api_admin_start bump_session clear_leaderboard_snapshot snapshot_leaderboard
  by_cases h : 0 < qs.length <;> simp [h]

theorem api_admin_start_phase (qs : List Question) (now : ℚ) (s : QuizState) :
    (api_admin_start qs now s).2.phase =
      (if 0 < qs.length then Phase.question else Phase.final) := by
  unfold api_admin_start bump_session clear_leaderboard_snapshot snapshot_leaderboard
  by_cases h : 0 < qs.length <;> simp [h]

theorem phaseIndexInv_congr (qs : List Question) {s t : QuizState}
    (hph : t.phase = s.phase) (hidx : t.currentIndex = s.currentIndex)
    (h : phaseIndexInv qs s) : phaseIndexInv qs t := by
  simp only [phaseIndexInv, hph, hidx]
  exact h

/-! ## C2: the admin advance operation drives the phase sequence -/

/-- C2: for a bank with N>0 questions, `advance` drives
question → answer → reveal, reveal → question with the index incremented while
`current_index + 1 < N`, reveal → final on the last question; `advance` from
lobby is rejected with the NotStarted error (`"Start the quiz first"`, 400);
and `advance` from final is a success no-op. -/
theorem advance_drives_phase_sequence (qs : List Question) (s : QuizState)
    (hN : 0 < qs.length) :
    (s.phase = Phase.question → (api_admin_advance qs s).2.phase = Phase.answer ∧
      (api_admin_advance qs s).1.ok = true) ∧
    (s.phase = Phase.answer → (api_admin_advance qs s).2.phase = Phase.reveal ∧
      (api_admin_advance qs s).1.ok = true) ∧
    (s.phase = Phase.reveal → s.currentIndex + 1 < (qs.length : Int) →
      (api_admin_advance qs s).2.phase = Phase.question ∧
      (api_admin_advance qs s).2.currentIndex = s.currentIndex + 1 ∧
      (api_admin_advance qs s).1.ok = true) ∧
    (s.phase = Phase.reveal → ¬s.currentIndex + 1 < (qs.length : Int) →
      (api_admin_advance qs s).2.phase = Phase.final ∧
      (api_admin_advance qs s).2.currentIndex = s.currentIndex ∧
      (api_admin_advance qs s).1.ok = true) ∧
    (s.phase = Phase.lobby →
      api_admin_advance qs s = (⟨false, "Start the quiz first", 400⟩, s)) ∧
    (s.phase = Phase.final →
      api_admin_advance qs s = (⟨true, "Already final", 200⟩, s)) := by
  refine ⟨?_, ?_, ?_, ?_, ?_, ?_⟩
  · intro h
    unfold api_admin_advance
    rw [h]
    exact ⟨rfl, rfl⟩
  · intro h
    unfold api_admin_advance
    rw [h]
    exact ⟨rfl, rfl⟩
  · intro h hlt
    unfold api_admin_advance
    rw [h]
    dsimp only
    rw [if_pos hlt]
    exact ⟨rfl, rfl, rfl⟩
  · intro h hge
    unfold api_admin_advance
    rw [h]
    dsimp only
    rw [if_neg hge]
    exact ⟨rfl, rfl, rfl⟩
  · intro h
    unfold api_admin_advance
    rw [h]
  · intro h
    unfold api_admin_advance
    rw [h]

/-- Witness for C2 at the one-question bank and the concrete question-phase
state `stQ2`. -/
theorem advance_drives_phase_sequence_witness :
    (stQ2.phase = Phase.question → (api_admin_advance qs1 stQ2).2.phase = Phase.answer ∧
      (api_admin_advance qs1 stQ2).1.ok = true) ∧
    (stQ2.phase = Phase.answer → (api_admin_advance qs1 stQ2).2.phase = Phase.reveal ∧
      (api_admin_advance qs1 stQ2).1.ok = true) ∧
    (stQ2.phase = Phase.reveal → stQ2.currentIndex + 1 < (qs1.length : Int) →
      (api_admin_advance qs1 stQ2).2.phase = Phase.question ∧
      (api_admin_advance qs1 stQ2).2.currentIndex = stQ2.currentIndex + 1 ∧
      (api_admin_advance qs1 stQ2).1.ok = true) ∧
    (stQ2.phase = Phase.reveal → ¬stQ2.currentIndex + 1 < (qs1.length : Int) →
      (api_admin_advance qs1 stQ2).2.phase = Phase.final ∧
      (api_admin_advance qs1 stQ2).2.currentIndex = stQ2.currentIndex ∧
      (api_admin_advance qs1 stQ2).1.ok = true) ∧
    (stQ2.phase = Phase.lobby →
      api_admin_advance qs1 stQ2 = (⟨false, "Start the quiz first", 400⟩, stQ2)) ∧
    (stQ2.phase = Phase.final →
      api_admin_advance qs1 stQ2 = (⟨true, "Already final", 200⟩, stQ2)) :=
  advance_drives_phase_sequence qs1 stQ2 (by decide)

/-! ## C3: the phase/index invariant -/

theorem advance_to_reveal_phase (s : QuizState) :
    (advance_to_reveal s).phase = Phase.reveal := rfl

theorem advance_to_reveal_currentIndex (s : QuizState) :
    (advance_to_reveal s).currentIndex = s.currentIndex := rfl

theorem advance_to_final_phase (s : QuizState) :
    (advance_to_final s).phase = Phase.final := rfl

theorem advance_to_final_currentIndex (s : QuizState) :
    (advance_to_final s).currentIndex = s.currentIndex := rfl

theorem submit_update_phase (s : QuizState) (c : String) (a : Option Int) (now : ℚ) :
    (submit_update s c a now).phase = s.phase := rfl

theorem submit_update_currentIndex (s : QuizState) (c : String) (a : Option Int) (now : ℚ) :
    (submit_update s c a now).currentIndex = s.currentIndex := rfl

/-- C3 counterexample: `start` on an empty question bank from the initial
state reaches a state whose phase is `final` while `current_index = -1`, so
"current_index = -1 iff phase = lobby" fails in a reachable state. -/
theorem lobby_index_iff_counterexample :
    sEmptyStart.phase = Phase.final ∧ sEmptyStart.currentIndex = -1 ∧
    ¬(sEmptyStart.currentIndex = -1 ↔ sEmptyStart.phase = Phase.lobby) := by
  with_unfolding_all decide

/-- C3 (amended): in every reachable state, phase `lobby` forces
`current_index = -1`; `current_index = -1` occurs only in `lobby` or in the
`final` state that an empty-bank `start` produces; any other non-lobby state
keeps `0 ≤ current_index < len(questions)`. The invariant holds initially and
is preserved by start, advance, reset, submit, and register (with the question
bank unchanged across the call). -/
theorem phase_index_invariant_preserved (qs : List Question) (s : QuizState)
    (hInv : phaseIndexInv qs s) :
    (∀ t0 : ℚ, phaseIndexInv qs (initState t0)) ∧
    (∀ now : ℚ, phaseIndexInv qs (api_admin_start qs now s).2) ∧
    phaseIndexInv qs (api_admin_advance qs s).2 ∧
    (∀ now : ℚ, phaseIndexInv qs (api_admin_reset now s).2) ∧
    (∀ (nm : String) (a : Option Int) (now : ℚ),
      phaseIndexInv qs (api_submit qs nm a now s).2) ∧
    (∀ nm pv : String, phaseIndexInv qs (api_register nm pv s).2) := by
  obtain ⟨h1, h2, h3⟩ := hInv
  refine ⟨?_, ?_, ?_, ?_, ?_, ?_⟩
  · intro t0
    exact ⟨fun _ => rfl, fun _ => Or.inl rfl, fun _ hne => absurd rfl hne⟩
  · intro now
    by_cases h : 0 < qs.length
    · refine ⟨?_, ?_, ?_⟩
      · intro hl
        rw [api_admin_start_phase, if_pos h] at hl
        exact Phase.noConfusion hl
      · intro hi
        rw [api_admin_start_currentIndex, if_pos h] at hi
        exact absurd hi (by decide)
      · intro _ _
        rw [api_admin_start_currentIndex, if_pos h]
        exact ⟨le_refl 0, by exact_mod_cast h⟩
    · refine ⟨?_, ?_, ?_⟩
      · intro hl
        rw [api_admin_start_phase, if_neg h] at hl
        exact Phase.noConfusion hl
      · intro _
        exact Or.inr (by rw [api_admin_start_phase, if_neg h])
      · intro _ hne
        exact absurd (by rw [api_admin_start_currentIndex, if_neg h]) hne
  · cases hps : s.phase with
    | lobby =>
      unfold api_admin_advance
      rw [hps]
      exact ⟨h1, h2, h3⟩
    | question =>
      unfold api_admin_advance
      rw [hps]
      refine ⟨?_, ?_, ?_⟩
      · intro hl
        rw [advance_to_answer_phase] at hl
        exact Phase.noConfusion hl
      · intro hi
        rw [advance_to_answer_currentIndex] at hi
        rcases h2 hi with hx | hx <;> rw [hps] at hx <;> exact Phase.noConfusion hx
      · intro _ hne
        rw [advance_to_answer_currentIndex] at hne ⊢
        exact h3 (by simp [hps]) hne
    | answer =>
      unfold api_admin_advance
      rw [hps]
      refine ⟨?_, ?_, ?_⟩
      · intro hl
        rw [advance_to_reveal_phase] at hl
        exact Phase.noConfusion hl
      · intro hi
        rw [advance_to_reveal_currentIndex] at hi
        rcases h2 hi with hx | hx <;> rw [hps] at hx <;> exact Phase.noConfusion hx
      · intro _ hne
        rw [advance_to_reveal_currentIndex] at hne ⊢
        exact h3 (by simp [hps]) hne
    | reveal =>
      unfold api_admin_advance
      rw [hps]
      dsimp only
      have hne0 : s.currentIndex ≠ -1 := by
        intro hi0
        rcases h2 hi0 with hx | hx <;> rw [hps] at hx <;> exact Phase.noConfusion hx
      have hb := h3 (by simp [hps]) hne0
      by_cases hlt : s.currentIndex + 1 < (qs.length : Int)
      · rw [if_pos hlt]
        refine ⟨?_, ?_, ?_⟩
        · intro hl
          exact Phase.noConfusion hl
        · intro hi
          exfalso
          have hi' : s.currentIndex + 1 = -1 := hi
          omega
        · intro _ _
          show 0 ≤ s.currentIndex + 1 ∧ s.currentIndex + 1 < (qs.length : Int)
          exact ⟨by omega, hlt⟩
      · rw [if_neg hlt]
        refine ⟨?_, ?_, ?_⟩
        · intro hl
          rw [advance_to_final_phase] at hl
          exact Phase.noConfusion hl
        · intro _
          exact Or.inr (advance_to_final_phase s)
        · intro _ hne
          rw [advance_to_final_currentIndex] at hne ⊢
          exact h3 (by simp [hps]) hne
    | final =>
      unfold api_admin_advance
      rw [hps]
      exact ⟨h1, h2, h3⟩
  · intro now
    exact ⟨fun _ => rfl, fun _ => Or.inl rfl, fun _ hne => absurd rfl hne⟩
  · intro nm a now
    by_cases hph : s.phase = Phase.question
    · cases halget : alGet s.nameIndex (submitLower nm) with
      | none =>
        rw [api_submit_unregistered qs nm a now s hph halget]
        exact ⟨h1, h2, h3⟩
      | some canonical =>
        cases hrl : rate_limited s canonical now with
        | true =>
          rw [api_submit_throttled qs nm a now s canonical hph halget hrl]
          exact ⟨h1, h2, h3⟩
        | false =>
          rw [api_submit_accept qs nm a now s canonical hph halget hrl]
          by_cases hc : 0 < s.players.length ∧
              s.players.length ≤ (listAdd s.submitted canonical).length
          · rw [if_pos hc]
            refine ⟨?_, ?_, ?_⟩
            · intro hl
              rw [advance_to_answer_phase] at hl
              exact Phase.noConfusion hl
            · intro hi
              rw [advance_to_answer_currentIndex, submit_update_currentIndex] at hi
              rcases h2 hi with hx | hx <;> rw [hph] at hx <;> exact Phase.noConfusion hx
            · intro _ hne
              rw [advance_to_answer_currentIndex, submit_update_currentIndex] at hne ⊢
              exact h3 (by simp [hph]) hne
          · rw [if_neg hc]
            exact phaseIndexInv_congr qs (submit_update_phase s canonical a now)
              (submit_update_currentIndex s canonical a now) ⟨h1, h2, h3⟩
    · rw [api_submit_not_question qs nm a now s hph]
      exact ⟨h1, h2, h3⟩
  · intro nm pv
    exact phaseIndexInv_congr qs (api_register_phase nm pv s)
      (api_register_currentIndex nm pv s) ⟨h1, h2, h3⟩

/-- Witness for C3 (amended) at the one-question bank and the concrete
question-phase state `stQ2`. -/
theorem phase_index_invariant_preserved_witness :
    (∀ t0 : ℚ, phaseIndexInv qs1 (initState t0)) ∧
    (∀ now : ℚ, phaseIndexInv qs1 (api_admin_start qs1 now stQ2).2) ∧
    phaseIndexInv qs1 (api_admin_advance qs1 stQ2).2 ∧
    (∀ now : ℚ, phaseIndexInv qs1 (api_admin_reset now stQ2).2) ∧
    (∀ (nm : String) (a : Option Int) (now : ℚ),
      phaseIndexInv qs1 (api_submit qs1 nm a now stQ2).2) ∧
    (∀ nm pv : String, phaseIndexInv qs1 (api_register nm pv stQ2).2) :=
  phase_index_invariant_preserved qs1 stQ2
    ⟨fun hl => absurd hl (by with_unfolding_all decide),
     fun hi => absurd hi (by with_unfolding_all decide),
     fun _ _ => by with_unfolding_all decide⟩

/-! ## C4: colliding registration -/

/-- C4 counterexample: with `Alice` registered, a plain register call for the
distinct spelling `ALICE` (same case-folded key) is not rejected with the
NameTaken error: it succeeds (`ok = true`) as a no-op, and the stored
canonical spelling remains `Alice`. -/
theorem colliding_register_not_rejected_counterexample :
    (api_register "ALICE" "" stLobby).1.ok = true ∧
    (api_register "ALICE" "" stLobby).2 = stLobby ∧
    alGet stLobby.nameIndex "alice" = some "Alice" ∧
    normalize_name "ALICE" ≠ normalize_name "Alice" ∧
    caseFold (normalize_name "ALICE") = caseFold (normalize_name "Alice") := by
  with_unfolding_all decide

/-- C4 (amended): when a requested name's case-folded key is already
registered (under any canonical spelling), a plain register call — no
previous name supplied — returns success as a complete no-op: the registry
and the stored canonical spelling are unchanged. The NameTaken rejection is
produced only by the rename path: a nonempty previous name that does not
resolve to the same key, in the lobby phase, with the target key taken. -/
theorem colliding_register_is_noop (s : QuizState) (n c : String)
    (hn : normalize_name n ≠ "")
    (htaken : alGet s.nameIndex (caseFold (normalize_name n)) = some c) :
    api_register n "" s = (⟨true, "", 200⟩, s) ∧
    (∀ pv : String, pyStrip pv ≠ "" → s.phase = Phase.lobby →
      ¬((alGet s.nameIndex (prevLower (pyStrip pv))).isSome = true ∧
        prevLower (pyStrip pv) = caseFold (normalize_name n)) →
      api_register n pv s =
        (⟨false, "That name is already taken. Please pick a different name.", 400⟩, s)) := by
  constructor
  · simp only [api_register, register_new_block]
    rw [if_neg hn]
    rw [if_pos (show pyStrip "" = "" from rfl), htaken]
    rfl
  · intro pv hpv hlobby hnot
    simp only [api_register]
    rw [if_neg hn, if_neg hpv]
    cases hpe : alGet s.nameIndex (prevLower (pyStrip pv)) with
    | none =>
      dsimp only
      rw [if_neg (by simp [hlobby]), htaken]
      rfl
    | some old_canon =>
      dsimp only
      have hne : ¬(prevLower (pyStrip pv) = caseFold (normalize_name n)) := by
        intro h
        exact hnot ⟨by rw [hpe]; rfl, h⟩
      rw [if_neg hne, if_neg (by simp [hlobby]), htaken]
      rfl

/-- Witness for C4 (amended) at the concrete lobby state with `Alice`
registered and the colliding spelling `ALICE`. -/
theorem colliding_register_is_noop_witness :
    api_register "ALICE" "" stLobby = (⟨true, "", 200⟩, stLobby) ∧
    (∀ pv : String, pyStrip pv ≠ "" → stLobby.phase = Phase.lobby →
      ¬((alGet stLobby.nameIndex (prevLower (pyStrip pv))).isSome = true ∧
        prevLower (pyStrip pv) = caseFold (normalize_name "ALICE")) →
      api_register "ALICE" pv stLobby =
        (⟨false, "That name is already taken. Please pick a different name.", 400⟩,
          stLobby)) :=
  colliding_register_is_noop stLobby "ALICE" "Alice"
    (by with_unfolding_all decide) (by with_unfolding_all rfl)

/-! ## C5: leaderboard snapshot stability -/

theorem api_leaderboard_advance_to_answer (qs : List Question) (s : QuizState) :
    api_leaderboard (advance_to_answer qs s) = api_leaderboard s :=
  api_leaderboard_score_once qs s

/-- C5: the snapshot served by `/api/leaderboard` is unchanged by submit and
by the scoring operation, even when cumulative scores change underneath; and
within `advance` it is recomputed (from the live score ledger) exactly on
entry to `reveal` (from `answer`) or to `final` (last question from
`reveal`), while every other advance transition leaves it untouched. -/
theorem leaderboard_snapshot_stable (qs : List Question) (s : QuizState) :
    (∀ (nm : String) (a : Option Int) (now : ℚ),
      api_leaderboard (api_submit qs nm a now s).2 = api_leaderboard s) ∧
    api_leaderboard (score_current_question_once qs s) = api_leaderboard s ∧
    (s.phase = Phase.answer →
      (api_admin_advance qs s).2.lbRows = sortScoresDesc s.scores ∧
      (api_admin_advance qs s).2.lbWinners = (winners_from_scores s.scores).1 ∧
      (api_admin_advance qs s).2.lbMax = (winners_from_scores s.scores).2) ∧
    (s.phase = Phase.reveal → ¬s.currentIndex + 1 < (qs.length : Int) →
      (api_admin_advance qs s).2.lbRows = sortScoresDesc s.scores ∧
      (api_admin_advance qs s).2.lbWinners = (winners_from_scores s.scores).1 ∧
      (api_admin_advance qs s).2.lbMax = (winners_from_scores s.scores).2) ∧
    (s.phase = Phase.question ∨ s.phase = Phase.lobby ∨ s.phase = Phase.final →
      api_leaderboard (api_admin_advance qs s).2 = api_leaderboard s) ∧
    (s.phase = Phase.reveal → s.currentIndex + 1 < (qs.length : Int) →
      api_leaderboard (api_admin_advance qs s).2 = api_leaderboard s) := by
  refine ⟨?_, api_leaderboard_score_once qs s, ?_, ?_, ?_, ?_⟩
  · intro nm a now
    by_cases hph : s.phase = Phase.question
    · cases halget : alGet s.nameIndex (submitLower nm) with
      | none =>
        rw [api_submit_unregistered qs nm a now s hph halget]
      | some canonical =>
        cases hrl : rate_limited s canonical now with
        | true =>
          rw [api_submit_throttled qs nm a now s canonical hph halget hrl]
        | false =>
          rw [api_submit_accept qs nm a now s canonical hph halget hrl]
          by_cases hc : 0 < s.players.length ∧
              s.players.length ≤ (listAdd s.submitted canonical).length
          · rw [if_pos hc]
            exact api_leaderboard_advance_to_answer qs (submit_update s canonical a now)
          · rw [if_neg hc]
            rfl
    · rw [api_submit_not_question qs nm a now s hph]
  · intro h
    unfold api_admin_advance
    rw [h]
    exact ⟨rfl, rfl, rfl⟩
  · intro h hge
    unfold api_admin_advance
    rw [h]
    dsimp only
    rw [if_neg hge]
    exact ⟨rfl, rfl, rfl⟩
  · rintro (h | h | h) <;> unfold api_admin_advance <;> rw [h]
    exact api_leaderboard_advance_to_answer qs s
  · intro h hlt
    unfold api_admin_advance
    rw [h]
    dsimp only
    rw [if_pos hlt]
    rfl

/-- Witness for C5 at the one-question bank and the concrete question-phase
state `sub1` (instantiating every quantifier of the claim). -/
theorem leaderboard_snapshot_stable_witness :
    (∀ (nm : String) (a : Option Int) (now : ℚ),
      api_leaderboard (api_submit qs1 nm a now sub1).2 = api_leaderboard sub1) ∧
    api_leaderboard (score_current_question_once qs1 sub1) = api_leaderboard sub1 ∧
    (sub1.phase = Phase.answer →
      (api_admin_advance qs1 sub1).2.lbRows = sortScoresDesc sub1.scores ∧
      (api_admin_advance qs1 sub1).2.lbWinners = (winners_from_scores sub1.scores).1 ∧
      (api_admin_advance qs1 sub1).2.lbMax = (winners_from_scores sub1.scores).2) ∧
    (sub1.phase = Phase.reveal → ¬sub1.currentIndex + 1 < (qs1.length : Int) →
      (api_admin_advance qs1 sub1).2.lbRows = sortScoresDesc sub1.scores ∧
      (api_admin_advance qs1 sub1).2.lbWinners = (winners_from_scores sub1.scores).1 ∧
      (api_admin_advance qs1 sub1).2.lbMax = (winners_from_scores sub1.scores).2) ∧
    (sub1.phase = Phase.question ∨ sub1.phase = Phase.lobby ∨ sub1.phase = Phase.final →
      api_leaderboard (api_admin_advance qs1 sub1).2 = api_leaderboard sub1) ∧
    (sub1.phase = Phase.reveal → sub1.currentIndex + 1 < (qs1.length : Int) →
      api_leaderboard (api_admin_advance qs1 sub1).2 = api_leaderboard sub1) :=
  leaderboard_snapshot_stable qs1 sub1

/-! ## C6: the start operation -/

theorem api_admin_start_submitted (qs : List Question) (now : ℚ) (s : QuizState) :
    (api_admin_start qs now s).2.submitted = [] := by
  unfold api_admin_start bump_session clear_leaderboard_snapshot snapshot_leaderboard
  by_cases h : 0 < qs.length <;> simp [h]

theorem api_admin_start_currentAnswers (qs : List Question) (now : ℚ) (s : QuizState) :
    (api_admin_start qs now s).2.currentAnswers = [] := by
  unfold api_admin_start bump_session clear_leaderboard_snapshot snapshot_leaderboard
  by_cases h : 0 < qs.length <;> simp [h]

theorem api_admin_start_quizSession (qs : List Question) (now : ℚ) (s : QuizState) :
    (api_admin_start qs now s).2.quizSession = pyTrunc (now * 1000) := by
  unfold api_admin_start bump_session clear_leaderboard_snapshot snapshot_leaderboard
  by_cases h : 0 < qs.length <;> simp [h]

/-- C6: from the lobby, `start` with an empty question bank transitions the
session directly to `final` in the single call (never entering `question`),
and with a nonempty bank enters `question` with `current_index = 0`; in both
cases the call clears the answer board (submitted set and stored answers) and
bumps the epoch from the clock. -/
theorem start_empty_bank_jumps_to_final (qs : List Question) (now : ℚ) (s : QuizState)
    (hl : s.phase = Phase.lobby) :
    (qs.length = 0 → (api_admin_start qs now s).2.phase = Phase.final) ∧
    (0 < qs.length → (api_admin_start qs now s).2.phase = Phase.question ∧
      (api_admin_start qs now s).2.currentIndex = 0) ∧
    (api_admin_start qs now s).2.submitted = [] ∧
    (api_admin_start qs now s).2.currentAnswers = [] ∧
    (api_admin_start qs now s).2.quizSession = pyTrunc (now * 1000) ∧
    (api_admin_start qs now s).1 = ⟨true, "Quiz started", 200⟩ := by
  refine ⟨?_, ?_, api_admin_start_submitted qs now s,
    api_admin_start_currentAnswers qs now s, api_admin_start_quizSession qs now s, rfl⟩
  · intro h0
    rw [api_admin_start_phase, if_neg (by omega)]
  · intro hpos
    rw [api_admin_start_phase, api_admin_start_currentIndex, if_pos hpos, if_pos hpos]
    exact ⟨rfl, rfl⟩

/-- Witness for C6: `start` on the empty bank from the freshly loaded state. -/
theorem start_empty_bank_jumps_to_final_witness :
    (([] : List Question).length = 0 →
      (api_admin_start [] 4 (initState 0)).2.phase = Phase.final) ∧
    (0 < ([] : List Question).length →
      (api_admin_start [] 4 (initState 0)).2.phase = Phase.question ∧
      (api_admin_start [] 4 (initState 0)).2.currentIndex = 0) ∧
    (api_admin_start [] 4 (initState 0)).2.submitted = [] ∧
    (api_admin_start [] 4 (initState 0)).2.currentAnswers = [] ∧
    (api_admin_start [] 4 (initState 0)).2.quizSession = pyTrunc (4 * 1000) ∧
    (api_admin_start [] 4 (initState 0)).1 = ⟨true, "Quiz started", 200⟩ :=
  start_empty_bank_jumps_to_final [] 4 (initState 0) rfl

/-! ## C7: the submission cooldown -/

/-- C7: while the question phase is active, a submit from a registered player
whose previous submission timestamp lies within the cooldown window
(`now - ts < 0.3`) is rejected with the RateLimited response
(`"Slow down"`, 429) and the entire state — stored answer, submitted set,
phase, scores, timestamps — is exactly the pre-call state. -/
theorem cooldown_resubmit_rejected (qs : List Question) (nm : String) (a : Option Int)
    (now : ℚ) (s : QuizState) (canonical : String) (ts : ℚ)
    (hph : s.phase = Phase.question)
    (hres : alGet s.nameIndex (submitLower nm) = some canonical)
    (hts : alGet s.lastSubmissionTs canonical = some ts)
    (hwin : now - ts < 3 / 10) :
    api_submit qs nm a now s = (⟨false, "Slow down", 429⟩, s) := by
  apply api_submit_throttled qs nm a now s canonical hph hres
  unfold rate_limited
  rw [hts]
  exact decide_eq_true hwin

/-- Witness for C7: `Alice` submitted at clock 2 in `sub1` and submits again
at clock 21/10, inside the 0.3 s window. -/
theorem cooldown_resubmit_rejected_witness :
    api_submit qs1 "Alice" (some 0) (21 / 10) sub1 = (⟨false, "Slow down", 429⟩, sub1) :=
  cooldown_resubmit_rejected qs1 "Alice" (some 0) (21 / 10) sub1 "Alice" 2
    (by with_unfolding_all rfl) (by with_unfolding_all rfl)
    (by with_unfolding_all rfl) (by with_unfolding_all decide)

/-! ## C8: the unknown-previous-name fallback -/

/-- C8 counterexample: in the question phase with `Ghost` unregistered,
`register("Zed", prev="Ghost")` is rejected as a locked rename while plain
`register("Zed")` succeeds — the unknown-previous-name fallback is not
equivalent to plain registration in every phase. -/
theorem rename_unknown_prev_not_register_counterexample :
    alGet stQ2.nameIndex (prevLower (pyStrip "Ghost")) = none ∧
    stQ2.phase = Phase.question ∧
    (api_register "Zed" "Ghost" stQ2).1.ok = false ∧
    (api_register "Zed" "" stQ2).1.ok = true ∧
    api_register "Zed" "Ghost" stQ2 ≠ api_register "Zed" "" stQ2 := by
  with_unfolding_all decide

/-- C8 (amended): when the previous name's key is unknown, the rename call
falls back to plain registration — same result and same post-state — only
while the phase is lobby and the requested key is free; outside the lobby the
rename path rejects with the locked-rename error, and a taken target key
yields NameTaken instead of register's no-op success. -/
theorem rename_unknown_prev_falls_back (s : QuizState) (n pv : String)
    (hpv : pyStrip pv ≠ "")
    (hprev : alGet s.nameIndex (prevLower (pyStrip pv)) = none)
    (hlobby : s.phase = Phase.lobby)
    (hfree : alGet s.nameIndex (caseFold (normalize_name n)) = none) :
    api_register n pv s = api_register n "" s := by
  by_cases hn : normalize_name n = ""
  · simp only [api_register]
    rw [if_pos hn, if_pos hn]
  · simp only [api_register]
    rw [if_neg hn, if_neg hn, if_neg hpv, if_pos (show pyStrip "" = "" from rfl), hprev]
    dsimp only
    rw [if_neg (by simp [hlobby]), hfree]
    simp

/-- Witness for C8 (amended) in the concrete lobby state `stLobby`. -/
theorem rename_unknown_prev_falls_back_witness :
    api_register "Zed" "Ghost" stLobby = api_register "Zed" "" stLobby :=
  rename_unknown_prev_falls_back stLobby "Zed" "Ghost"
    (by with_unfolding_all decide) (by with_unfolding_all rfl)
    (by with_unfolding_all rfl) (by with_unfolding_all rfl)

/-! ## C9: the session epoch -/

/-- C9 counterexample: two consecutive `start` calls at the distinct clock
readings 5/2 s and 12501/5000 s — the same whole millisecond — leave the
epoch at 2500 both times, so "the epoch after the call differs from the epoch
before it for all clock inputs" fails. -/
theorem epoch_same_millisecond_counterexample :
    (5 / 2 : ℚ) ≠ 12501 / 5000 ∧
    sEp1.quizSession = 2500 ∧ sEp2.quizSession = 2500 ∧
    sEp2.quizSession = sEp1.quizSession := by
  with_unfolding_all decide

/-- C9 (amended): `start` and `reset` both set the epoch to the clock reading
in whole milliseconds (`str(int(now*1000))`), so the epoch after the call
differs from the epoch before it exactly when that millisecond value differs
from the stored epoch; two calls within the same clock millisecond leave it
unchanged. -/
theorem epoch_set_from_clock (qs : List Question) (now : ℚ) (s : QuizState)
    (hdiff : pyTrunc (now * 1000) ≠ s.quizSession) :
    (api_admin_start qs now s).2.quizSession = pyTrunc (now * 1000) ∧
    (api_admin_reset now s).2.quizSession = pyTrunc (now * 1000) ∧
    (api_admin_start qs now s).2.quizSession ≠ s.quizSession ∧
    (api_admin_reset now s).2.quizSession ≠ s.quizSession := by
  refine ⟨api_admin_start_quizSession qs now s, rfl, ?_, ?_⟩
  · rw [api_admin_start_quizSession]
    exact hdiff
  · exact hdiff

/-- Witness for C9 (amended): `start`/`reset` at clock 3 on the concrete
lobby state `stLobby` (whose epoch is 0). -/
theorem epoch_set_from_clock_witness :
    (api_admin_start qs1 3 stLobby).2.quizSession = pyTrunc (3 * 1000) ∧
    (api_admin_reset 3 stLobby).2.quizSession = pyTrunc (3 * 1000) ∧
    (api_admin_start qs1 3 stLobby).2.quizSession ≠ stLobby.quizSession ∧
    (api_admin_reset 3 stLobby).2.quizSession ≠ stLobby.quizSession :=
  epoch_set_from_clock qs1 3 stLobby (by with_unfolding_all decide)

/-! ## C10: registration in any phase and the auto-advance threshold -/

theorem api_submit_no_advance (qs : List Question) (m : String) (a : Option Int)
    (now : ℚ) (R : QuizState) (c : String)
    (hq : R.phase = Phase.question)
    (hres : alGet R.nameIndex (submitLower m) = some c)
    (hrl : rate_limited R c now = false)
    (hcs : c ∈ R.submitted)
    (hlen : R.submitted.length < R.players.length) :
    (api_submit qs m a now R).2.phase = Phase.question := by
  rw [api_submit_accept qs m a now R c hq hres hrl]
  have hAdd : listAdd R.submitted c = R.submitted := by
    unfold listAdd
    rw [if_pos hcs]
  rw [if_neg ?hcnd]
  · exact hq
  case hcnd =>
    rintro ⟨-, h2⟩
    rw [hAdd] at h2
    omega

theorem api_submit_advances (qs : List Question) (m : String) (a : Option Int)
    (now : ℚ) (R : QuizState) (c : String)
    (hq : R.phase = Phase.question)
    (hres : alGet R.nameIndex (submitLower m) = some c)
    (hrl : rate_limited R c now = false)
    (hcs : c ∉ R.submitted)
    (hpos : 0 < R.players.length)
    (hlen : R.players.length ≤ R.submitted.length + 1) :
    (api_submit qs m a now R).2.phase = Phase.answer := by
  rw [api_submit_accept qs m a now R c hq hres hrl]
  have hAdd : listAdd R.submitted c = R.submitted ++ [c] := by
    unfold listAdd
    rw [if_neg hcs]
  rw [if_pos ?hcnd]
  · rfl
  case hcnd =>
    refine ⟨hpos, ?_⟩
    rw [hAdd]
    simp only [List.length_append, List.length_cons, List.length_nil]
    omega

/-- C10: a plain register call (no previous name) for a fresh valid name
succeeds in every phase — not just the lobby — appending the player to the
registry and leaving the phase untouched; and the newly added player
immediately counts toward the all-players-submitted threshold of submit's
auto-advance: when every previously registered player has already submitted,
a further accepted submit by one of them leaves the phase at `question`,
while the new player's own submit triggers the question → answer advance. -/
theorem register_any_phase_counts_toward_threshold (qs : List Question)
    (s : QuizState) (n : String)
    (hn : normalize_name n ≠ "")
    (hfree : alGet s.nameIndex (caseFold (normalize_name n)) = none)
    (hnp : normalize_name n ∉ s.players) :
    (api_register n "" s).1 = ⟨true, "", 200⟩ ∧
    (api_register n "" s).2.players = s.players ++ [normalize_name n] ∧
    (api_register n "" s).2.phase = s.phase ∧
    (api_register n "" s).2.nameIndex =
      alSet s.nameIndex (caseFold (normalize_name n)) (normalize_name n) ∧
    (s.phase = Phase.question →
      s.players.Nodup → s.submitted.Nodup →
      (∀ p ∈ s.players, p ∈ s.submitted) → (∀ p ∈ s.submitted, p ∈ s.players) →
      normalize_name n ∉ s.submitted →
      (∀ (m : String) (a : Option Int) (now : ℚ) (c : String),
        alGet (api_register n "" s).2.nameIndex (submitLower m) = some c →
        c ∈ s.players →
        rate_limited (api_register n "" s).2 c now = false →
        (api_submit qs m a now (api_register n "" s).2).2.phase = Phase.question) ∧
      (∀ (m : String) (a : Option Int) (now : ℚ),
        submitLower m = caseFold (normalize_name n) →
        rate_limited (api_register n "" s).2 (normalize_name n) now = false →
        (api_submit qs m a now (api_register n "" s).2).2.phase = Phase.answer)) := by
  have hreg : api_register n "" s =
      (⟨true, "", 200⟩,
        { s with
          players := listAdd s.players (normalize_name n)
          nameIndex := alSet s.nameIndex (caseFold (normalize_name n)) (normalize_name n)
          scores := alSet s.scores (normalize_name n) (scGet s.scores (normalize_name n)) }) := by
    simp only [api_register, register_new_block]
    rw [if_neg hn, if_pos (show pyStrip "" = "" from rfl), hfree]
    rfl
  have hadd : listAdd s.players (normalize_name n) = s.players ++ [normalize_name n] := by
    unfold listAdd
    rw [if_neg hnp]
  have hRsub : (api_register n "" s).2.submitted = s.submitted := by rw [hreg]
  have hRplay : (api_register n "" s).2.players = s.players ++ [normalize_name n] := by
    rw [hreg]
    exact hadd
  have hRphase : (api_register n "" s).2.phase = s.phase := by rw [hreg]
  have hRidx : (api_register n "" s).2.nameIndex =
      alSet s.nameIndex (caseFold (normalize_name n)) (normalize_name n) := by rw [hreg]
  refine ⟨by rw [hreg], hRplay, hRphase, hRidx, ?_⟩
  intro hq hndP hndS hPS hSP hnsub
  have hlenSP : s.submitted.length ≤ s.players.length := (hndS.subperm hSP).length_le
  have hlenPS : s.players.length ≤ s.submitted.length := (hndP.subperm hPS).length_le
  constructor
  · intro m a now c hres hcP hrl
    refine api_submit_no_advance qs m a now _ c (by rw [hRphase]; exact hq) hres hrl ?_ ?_
    · rw [hRsub]
      exact hPS c hcP
    · rw [hRsub, hRplay]
      simp only [List.length_append, List.length_cons, List.length_nil]
      omega
  · intro m a now hkey hrl
    have hres : alGet (api_register n "" s).2.nameIndex (submitLower m) =
        some (normalize_name n) := by
      rw [hRidx, hkey]
      exact alGet_alSet_self _ _ _
    refine api_submit_advances qs m a now _ (normalize_name n)
      (by rw [hRphase]; exact hq) hres hrl ?_ ?_ ?_
    · rw [hRsub]
      exact hnsub
    · rw [hRplay]
      simp
    · rw [hRplay, hRsub]
      simp only [List.length_append, List.length_cons, List.length_nil]
      omega

/-- Witness for C10 at the concrete question-phase state `sAllSub` (both
registered players already submitted) and the fresh name `Carol`. -/
theorem register_any_phase_counts_toward_threshold_witness :
    (api_register "Carol" "" sAllSub).1 = ⟨true, "", 200⟩ ∧
    (api_register "Carol" "" sAllSub).2.players =
      sAllSub.players ++ [normalize_name "Carol"] ∧
    (api_register "Carol" "" sAllSub).2.phase = sAllSub.phase ∧
    (api_register "Carol" "" sAllSub).2.nameIndex =
      alSet sAllSub.nameIndex (caseFold (normalize_name "Carol"))
        (normalize_name "Carol") ∧
    (sAllSub.phase = Phase.question →
      sAllSub.players.Nodup → sAllSub.submitted.Nodup →
      (∀ p ∈ sAllSub.players, p ∈ sAllSub.submitted) →
      (∀ p ∈ sAllSub.submitted, p ∈ sAllSub.players) →
      normalize_name "Carol" ∉ sAllSub.submitted →
      (∀ (m : String) (a : Option Int) (now : ℚ) (c : String),
        alGet (api_register "Carol" "" sAllSub).2.nameIndex (submitLower m) = some c →
        c ∈ sAllSub.players →
        rate_limited (api_register "Carol" "" sAllSub).2 c now = false →
        (api_submit qs1 m a now (api_register "Carol" "" sAllSub).2).2.phase =
          Phase.question) ∧
      (∀ (m : String) (a : Option Int) (now : ℚ),
        submitLower m = caseFold (normalize_name "Carol") →
        rate_limited (api_register "Carol" "" sAllSub).2 (normalize_name "Carol") now
          = false →
        (api_submit qs1 m a now (api_register "Carol" "" sAllSub).2).2.phase =
          Phase.answer)) :=
  register_any_phase_counts_toward_threshold qs1 sAllSub "Carol"
    (by with_unfolding_all decide) (by with_unfolding_all rfl)
    (by with_unfolding_all decide)
